import Mathlib

/-!
Shallow embedding of the libdmt allocator toolkit.

The development models three components of the repository:

* the block manager (`src/include/allocators/strategy/block.hpp`),
* the page provider with its lock-free span registry
  (`src/include/dmt/allocator/page.hpp`), executed sequentially, and
* the bump allocator (`src/include/libdmt/allocator/bump.hpp`).

C++ machine integers are modelled as `Nat` with explicit `% 2 ^ w`
truncation where the source relies on a fixed bit width (the 48/12/2-bit
registry bit-fields, the 16-bit span count, and the `size_t` wraparound in
the bump allocator's remaining-space computation).  Platform primitives
(`FetchPages`, `ReturnPages`, `AllocateBytes`, `GetPageSize`) live in
headers that are not part of the sources; they are modelled from the spec
as an oracle handing out fresh page-aligned address ranges and recording
the currently mapped ranges.  The page size reported by the platform is a
parameter of the oracle (4096 on the usual platforms); one registry page
holds `pageSize / 8` span slots of which the first `16 / 8 = 2` are
reserved for the in-band header.
-/

/-- Modelled from the spec: `internal::AlignUp(n, a)` from the missing
`internal/util.hpp` rounds `n` up to the next multiple of the power-of-two
alignment `a`. -/
def alignUp (n a : Nat) : Nat := ((n + a - 1) / a) * a

/-- Modelled from the spec: `internal::AlignDown(n, a)` from the missing
`internal/util.hpp` rounds `n` down to a multiple of the alignment `a`. -/
def alignDown (n a : Nat) : Nat := (n / a) * a

/-- Wrapping `size_t` subtraction, `a - b` computed modulo `2 ^ 64`. -/
def wsub (a b : Nat) : Nat := (a % 2 ^ 64 + (2 ^ 64 - b % 2 ^ 64)) % 2 ^ 64

/-- Modelled from the spec: the block header (missing
`allocators/internal/block.hpp`) stores the block's total byte size and a
next pointer, two 8-byte words. -/
def blockHeaderSize : Nat := 16

/-- Runtime configuration record of the `Block` manager
(`Block::Options` in `block.hpp`). -/
structure BlockOptions where
  alignment : Nat
  size : Nat
  must_contain_size_bytes_in_space : Bool
  grow_when_full : Bool
  deriving DecidableEq, Repr

/-- `Block::GetAlignedSize` from `block.hpp`: the ultimate size of the
blocks after accounting for header and alignment. -/
def GetAlignedSize (o : BlockOptions) : Nat :=
  if o.must_contain_size_bytes_in_space then
    alignUp (o.size + blockHeaderSize) o.alignment
  else
    alignDown o.size o.alignment


/-- Error kinds of `error.hpp` as used by `page.hpp`. -/
inductive Error where
  | InvalidInput
  | Internal
  deriving DecidableEq, Repr

/-- `Page::Span`: a 48-bit base address and a 16-bit page count. -/
structure Span where
  address : Nat
  count : Nat
  deriving DecidableEq, Repr

/-- `Page::Registry`, the double-word registry header: 48-bit
`self_address`, 12-bit `next_slot`, 48-bit `next_registry` and 2-bit
`state` (0 = Inactive, 1 = Empty, 2 = Partial, 3 = Full). -/
structure Registry where
  self_address : Nat
  next_slot : Nat
  next_registry : Nat
  state : Nat
  deriving DecidableEq, Repr

/-- `Page::kRegistrySize`: number of pages backing one registry. -/
def kRegistrySize : Nat := 1

/-- `Page::kSpanSetStart = sizeof(Registry) / sizeof(Span)`: the first
span slot, the earlier slots being reserved for the in-band header. -/
def kSpanSetStart : Nat := 16 / 8

/-- `Page::kSpanSetEnd = (kRegistrySize * GetPageSize()) / sizeof(Span)`:
one past the last span slot of a registry, as a function of the
platform's page size (4096 on the usual platforms, giving 512 slots). -/
def kSpanSetEnd (ps : Nat) : Nat := (kRegistrySize * ps) / 8

/-- Modelled from the spec: the platform page oracle behind the missing
`internal/platform.hpp`.  It fixes the page size reported by
`GetPageSize`; `fetch_pages` hands out fresh page-aligned ranges from
`nextBase` while `quota` fetch calls remain, and `mapped` records the
ranges currently mapped. -/
structure Platform where
  pageSize : Nat
  nextBase : Nat
  quota : Nat
  mapped : List (Nat × Nat)
  deriving DecidableEq, Repr

/-- Modelled from the spec: `internal::FetchPages(count)` returns a fresh
page-aligned base on success; it fails (opaque `Internal` error) once the
quota of the oracle is exhausted. -/
def fetchPages (p : Platform) (count : Nat) : Option (Nat × Platform) :=
  if p.quota = 0 then none
  else some (p.nextBase,
    { p with
      nextBase := p.nextBase + count * p.pageSize,
      quota := p.quota - 1,
      mapped := (p.nextBase, count) :: p.mapped })

/-- Remove the first occurrence of a range from the mapped list. -/
def removeRange : List (Nat × Nat) → Nat × Nat → List (Nat × Nat)
  | [], _ => []
  | r :: rest, t => if r = t then rest else r :: removeRange rest t

/-- Modelled from the spec: `internal::ReturnPages` unmaps the given
range.  The model treats unmapping as always succeeding. -/
def returnPages (p : Platform) (base count : Nat) : Platform :=
  { p with mapped := removeRange p.mapped (base, count) }

/-- Sequential state of one `Page` provider: the atomic `registry_` cell,
the span sets of all registries ever installed (keyed by their
`self_address`), a ghost list of the replaced registry headers (newest
first, mirroring the `next_registry` chain), and the platform oracle. -/
structure PageState where
  registry : Registry
  chain : List Registry
  mem : List (Nat × Array Span)
  platform : Platform
  deriving Repr

/-- Look up the span set of the registry at a given base address. -/
def lookupMem : List (Nat × Array Span) → Nat → Option (Array Span)
  | [], _ => none
  | (a, arr) :: rest, addr => if a = addr then some arr else lookupMem rest addr

/-- Write a span into slot `i` of the span set at base address `addr`. -/
def writeSlot : List (Nat × Array Span) → Nat → Nat → Span → List (Nat × Array Span)
  | [], _, _, _ => []
  | (a, arr) :: rest, addr, i, sp =>
    if a = addr then (a, arr.setD i sp) :: rest
    else (a, arr) :: writeSlot rest addr i sp

/-- The all-zero state of `Page::registry_` before any allocation. -/
def initRegistry : Registry := ⟨0, 0, 0, 0⟩

/-- Initial provider state over a platform oracle with the given page
size, fetch quota and first free page-aligned address. -/
def mkInit (ps quota nextBase : Nat) : PageState :=
  { registry := initRegistry,
    chain := [],
    mem := [],
    platform := ⟨ps, nextBase, quota, []⟩ }

/-- `Page::CreateNewRegistry(registry)`: fetch `kRegistrySize` pages,
build the header of the new registry (`state = Empty`,
`next_registry = registry.self_address` unless `registry` was Inactive,
`next_slot = kSpanSetStart`, `self_address = fresh base`) and
compare-and-swap it into the registry cell.  Sequentially the CAS
succeeds whenever the argument equals the current cell; on CAS failure
the freshly fetched pages are returned.  The replaced non-Inactive header
is recorded in the ghost `chain`, and fresh registry pages start
zero-filled. -/
def createNewRegistry (s : PageState) (r : Registry) :
    Except Error Unit × PageState :=
  match fetchPages s.platform kRegistrySize with
  | none => (Except.error Error.Internal, s)
  | some (base, plat) =>
    if s.registry = r then
      (Except.ok (),
        { registry :=
            { self_address := base % 2 ^ 48,
              next_slot := kSpanSetStart % 2 ^ 12,
              next_registry := if r.state ≠ 0 then r.self_address % 2 ^ 48 else r.next_registry,
              state := 1 },
          chain := if r.state ≠ 0 then r :: s.chain else s.chain,
          mem := (base % 2 ^ 48, Array.mkArray (kSpanSetEnd plat.pageSize) ⟨0, 0⟩) :: s.mem,
          platform := plat })
    else
      (Except.ok (), { s with platform := returnPages plat base kRegistrySize })

/-- The committing step of `Page::RegisterSpan`: bump `next_slot`, set
the state to Full exactly when the new `next_slot` reaches `kSpanSetEnd`,
CAS the cell (sequentially always successful) and then write the span
into the reserved slot `registry.next_slot`. -/
def commitSpan (s : PageState) (sp : Span) : PageState :=
  let r := s.registry
  let newSlot := (r.next_slot + 1) % 2 ^ 12
  { s with
    registry :=
      { r with
        next_slot := newSlot,
        state := if newSlot = kSpanSetEnd s.platform.pageSize then 3 else 2 },
    mem := writeSlot s.mem r.self_address r.next_slot sp }

/-- `Page::RegisterSpan(span)`: loop of `page.hpp`, executed
sequentially.  If the current registry is Inactive or Full, install a new
registry first (a failure there is propagated); the retry then observes
the freshly installed Empty registry, whose insert CAS succeeds, so the
loop runs at most twice. -/
def registerSpan (s : PageState) (sp : Span) : Except Error Unit × PageState :=
  if s.registry.state = 0 ∨ s.registry.state = 3 then
    match createNewRegistry s s.registry with
    | (Except.error e, s1) => (Except.error e, s1)
    | (Except.ok _, s1) => (Except.ok (), commitSpan s1 sp)
  else
    (Except.ok (), commitSpan s sp)

/-- `Page::FindSpan(registry, base)`: scan the span slots
`[kSpanSetStart, kSpanSetEnd)` of the given registry's span set for a
span whose address equals `base`.  The source does not follow the
`next_registry` chain (its own `TODO` records the missing walk). -/
def findSpan (s : PageState) (r : Registry) (base : Nat) : Option Span :=
  match lookupMem s.mem r.self_address with
  | none => none
  | some arr =>
    (List.range' kSpanSetStart (kSpanSetEnd s.platform.pageSize - kSpanSetStart)).findSome?
      fun i =>
        match arr.get? i with
        | some sp => if sp.address = base then some sp else none
        | none => none

/-- `Page::Allocate(count)`: validate `1 ≤ count < 2 ^ 16`, fetch the
pages, register the span (truncated to its 48/16-bit fields); on registry
failure return the pages to the platform before propagating the error,
otherwise return the base address. -/
def pAllocate (s : PageState) (count : Nat) : Except Error Nat × PageState :=
  if count = 0 ∨ 2 ^ 16 ≤ count then (Except.error Error.InvalidInput, s)
  else
    match fetchPages s.platform count with
    | none => (Except.error Error.Internal, s)
    | some (base, plat) =>
      match registerSpan { s with platform := plat } ⟨base % 2 ^ 48, count % 2 ^ 16⟩ with
      | (Except.error e, s2) =>
        (Except.error e, { s2 with platform := returnPages s2.platform base count })
      | (Except.ok _, s2) => (Except.ok base, s2)

/-- `Page::Release(p)`: reject null, look the span up via `FindSpan` on
the current registry (failure is `InvalidInput`), and return the span's
pages to the platform.  The slot is not reclaimed. -/
def pRelease (s : PageState) (p : Nat) : Except Error Unit × PageState :=
  if p = 0 then (Except.error Error.InvalidInput, s)
  else
    match findSpan s s.registry p with
    | none => (Except.error Error.InvalidInput, s)
    | some sp => (Except.ok (), { s with platform := returnPages s.platform p sp.count })

/-- Modelled from the spec: the spec's `Release` "locates the span with
`address == p` by scanning registries from the current registry backward
through the `next_registry` chain".  The ghost `chain` field lists the
replaced registries newest first, so the chain scan is the scan of the
current registry followed by the recorded chain. -/
def chainContains (s : PageState) (p : Nat) : Bool :=
  (s.registry :: s.chain).any fun r => (findSpan s r p).isSome

/-- Project the error of a provider step result. -/
def resErr {α : Type} (r : Except Error α × PageState) : Option Error :=
  match r.1 with
  | Except.ok _ => none
  | Except.error e => some e

/-! ### Registry operations and invariant (claim C8) -/

/-- One registry operation: a `RegisterSpan` call, or a direct
`CreateNewRegistry` call on the freshly loaded current registry (the only
call pattern appearing in the source). -/
inductive RegOp where
  | ins (sp : Span)
  | newReg
  deriving DecidableEq, Repr

/-- Apply one registry operation to a provider state. -/
def applyRegOp (s : PageState) : RegOp → PageState
  | RegOp.ins sp => (registerSpan s sp).2
  | RegOp.newReg => (createNewRegistry s s.registry).2

/-- Run a list of registry operations, oldest first. -/
def runRegOps (s : PageState) (ops : List RegOp) : PageState :=
  ops.foldl applyRegOp s

/-- Guard under which `RegisterSpan` invokes `CreateNewRegistry`: the
current registry is Inactive or Full. -/
def opAllowed (s : PageState) : RegOp → Bool
  | RegOp.ins _ => true
  | RegOp.newReg => s.registry.state == 0 || s.registry.state == 3

/-- States reachable by guarded registry operations: `RegisterSpan` with
any span, and `CreateNewRegistry` only while the current registry is
Inactive or Full. -/
inductive GuardedReach : PageState → PageState → Prop where
  | refl (s : PageState) : GuardedReach s s
  | step {s t : PageState} (op : RegOp) :
      GuardedReach s t → opAllowed t op = true → GuardedReach s (applyRegOp t op)

/-- Bound part of the spec's registry-header invariant: `next_slot` lies
in `[kSpanSetStart, kSpanSetEnd]` and the state is Full exactly when
`next_slot` has reached `kSpanSetEnd`. -/
def headerBoundsOK (ps : Nat) (r : Registry) : Bool :=
  decide (kSpanSetStart ≤ r.next_slot) &&
  decide (r.next_slot ≤ kSpanSetEnd ps) &&
  decide (r.state = 3 ↔ r.next_slot = kSpanSetEnd ps)

/-- Link part of the spec's registry-header invariant: `next_registry` is
either null or the `self_address` of a Full registry of the chain. -/
def nextRegOK (chain : List Registry) (nr : Nat) : Bool :=
  nr == 0 || chain.any fun r => r.self_address == nr && r.state == 3

/-- The header invariant for one registry, trivially true when
Inactive. -/
def headerOK (ps : Nat) (chain : List Registry) (r : Registry) : Bool :=
  r.state == 0 || (headerBoundsOK ps r && nextRegOK chain r.next_registry)

/-- The header invariant for every registry of the chain, each linking
into the part of the chain older than itself. -/
def chainOK (ps : Nat) : List Registry → Bool
  | [] => true
  | r :: rest => headerOK ps rest r && chainOK ps rest

/-- The claimed registry invariant: every non-Inactive registry header
(the current one and every replaced one) has `next_slot` within bounds,
is Full exactly at capacity, and links to null or to a Full registry. -/
def RegInv (s : PageState) : Bool :=
  headerOK s.platform.pageSize s.chain s.registry && chainOK s.platform.pageSize s.chain

/-- Strengthened invariant used for the induction: the claimed invariant
plus bookkeeping facts — an Inactive current header is the all-zero one
with an empty chain, stored self-addresses fit in 48 bits, and the
platform's slot capacity is sane (strictly between `kSpanSetStart` and
`2 ^ 12`, as on every real platform). -/
def SInv (s : PageState) : Bool :=
  RegInv s &&
  (s.registry.state != 0 || (s.registry.next_registry == 0 && s.chain.isEmpty)) &&
  decide (s.registry.self_address < 2 ^ 48) &&
  (s.chain.all fun r => decide (r.self_address < 2 ^ 48)) &&
  decide (kSpanSetStart < kSpanSetEnd s.platform.pageSize) &&
  decide (kSpanSetEnd s.platform.pageSize < 2 ^ 12)

/-! ## Bump allocator (`src/include/libdmt/allocator/bump.hpp`) -/

/-- Modelled from the spec: the chunk header of the missing
`internal/chunk.hpp` stores the chunk's total size and a next pointer,
two 8-byte words, and `GetChunk(header)` returns the payload base
`header + GetChunkHeaderSize()`. -/
def chunkHeaderSize : Nat := 16

/-- Compile-time configuration of a `Bump` allocator: `Alignment_`
(at least `sizeof(void*)`), `RequestSize_` and `GrowWhenFull_`. -/
structure BumpCfg where
  alignment : Nat
  requestSize : Nat
  growWhenFull : Bool
  deriving DecidableEq, Repr

/-- `Bump::AlignedSize_ = AlignUp(RequestSize_ + GetChunkHeaderSize(),
Alignment_)`. -/
def AlignedSize (c : BumpCfg) : Nat :=
  alignUp (c.requestSize + chunkHeaderSize) c.alignment

/-- State of one `Bump` allocator: `offset_`, the chain of chunk base
addresses headed by `chunks_` (`current_` is its last element when set),
plus the modelled heap oracle (`nextBase`, the next fresh aligned
address) and the ghost list of released chunk bases. -/
structure BumpState where
  offset : Nat
  chunks : List Nat
  current : Option Nat
  nextBase : Nat
  released : List Nat
  deriving DecidableEq, Repr

/-- Modelled from the spec: `AllocateNewChunk` obtains `AlignedSize_`
aligned bytes from the heap oracle and writes a chunk header at the
base.  The model heap never fails and hands out consecutive ranges. -/
def allocChunk (c : BumpCfg) (s : BumpState) : Nat × BumpState :=
  (s.nextBase, { s with nextBase := s.nextBase + AlignedSize c })

/-- Final step of `Bump::allocate`: the returned pointer is the payload
base of the current chunk plus `offset_`, and `offset_` advances by the
aligned request size (a `size_t`, hence the `% 2 ^ 64`). -/
def bumpServe (s : BumpState) (request : Nat) : Option Nat × BumpState :=
  match s.current with
  | some b => (some (b + chunkHeaderSize + s.offset),
      { s with offset := (s.offset + request) % 2 ^ 64 })
  | none => (none, s)

/-- `Bump::allocate(n)`: reject `n > AlignedSize_`; lazily allocate the
first chunk; compute `request = AlignUp(n, Alignment_)` and `remaining =
AlignedSize_ - offset_ - GetChunkHeaderSize()` (wrapping `size_t`
arithmetic); grow by chaining a fresh chunk when the request does not
fit (or fail if growth is disabled); serve from the current chunk. -/
def bAllocate (c : BumpCfg) (s : BumpState) (n : Nat) : Option Nat × BumpState :=
  if AlignedSize c < n then (none, s)
  else
    let s0 :=
      if s.chunks.isEmpty then
        let (b, s1) := allocChunk c s
        { s1 with chunks := [b], current := some b }
      else s
    let request := alignUp n c.alignment
    let remaining := wsub (wsub (AlignedSize c) s0.offset) chunkHeaderSize
    if remaining < request then
      if !c.growWhenFull then (none, s0)
      else
        let (b, s1) := allocChunk c s0
        bumpServe { s1 with chunks := s1.chunks ++ [b], current := some b, offset := 0 } request
    else
      bumpServe s0 request

/-- `Bump::Reset`: zero `offset_`, release the whole chunk chain, clear
`chunks_`.  The source leaves `current_` untouched. -/
def bReset (s : BumpState) : BumpState :=
  { s with
    offset := 0,
    released := if s.chunks.isEmpty then s.released else s.released ++ s.chunks,
    chunks := [] }

/-- The rebinding copy constructor `Bump<T>::Bump(const Bump<U>&)`: an
empty body, so every member keeps its default initializer and nothing of
the source allocator is read or written (the model heap oracle is the
global heap, shared by construction). -/
def rebindCopy (src : BumpState) : BumpState :=
  { offset := 0,
    chunks := [],
    current := none,
    nextBase := src.nextBase,
    released := [] }

/-! ## Concrete states used by counterexamples and witnesses -/

/-- Provider state after one `Allocate(1)` on a 4096-byte-page platform:
the span `(4096, 1)` sits in slot 2 of the registry at `8192`. -/
def sAfterOne : PageState := (pAllocate (mkInit 4096 1000 4096) 1).2

/-- Provider state on a 64-byte-page platform (8 span slots per
registry, 6 of them usable) after 7 `Allocate(1)` calls: the first
registry (holding the first 6 spans, among them the first allocation's
base `4096`) is Full and chained behind the current registry, which
holds only the seventh span. -/
def sChained : PageState :=
  (List.range 7).foldl (fun s _ => (pAllocate s 1).2) (mkInit 64 100 4096)

/-- An unguarded registry-operation sequence: one `RegisterSpan` (the
current registry becomes Partial) followed by a direct
`CreateNewRegistry` on the Partial current registry. -/
def sUnguarded : PageState :=
  runRegOps (mkInit 4096 10 4096) [RegOp.ins ⟨4096, 1⟩, RegOp.newReg]

/-- Bump configuration with alignment 8 and request size 64, giving
`AlignedSize_ = 80`. -/
def cfg8 : BumpCfg := ⟨8, 64, true⟩

/-- A fresh bump allocator over a heap oracle starting at `4096`. -/
def bump0 : BumpState := ⟨0, [], none, 4096, []⟩


/-! ## Theorems -/

theorem alignUp_mod (n a : Nat) : alignUp n a % a = 0 := by
  unfold alignUp
  exact Nat.mul_mod_left _ _

theorem le_alignUp (n a : Nat) (h : 0 < a) : n ≤ alignUp n a := by
  unfold alignUp
  rw [Nat.mul_comm]
  have hdm := Nat.div_add_mod (n + a - 1) a
  have hmod : (n + a - 1) % a < a := Nat.mod_lt _ h
  generalize hq : a * ((n + a - 1) / a) = m at *
  generalize hr : (n + a - 1) % a = r at *
  omega

theorem alignUp_lt (n a : Nat) (h : 0 < a) : alignUp n a < n + a := by
  unfold alignUp
  rw [Nat.mul_comm]
  have hdm := Nat.div_add_mod (n + a - 1) a
  have hmod : (n + a - 1) % a < a := Nat.mod_lt _ h
  generalize hq : a * ((n + a - 1) / a) = m at *
  generalize hr : (n + a - 1) % a = r at *
  omega

theorem alignDown_mod (n a : Nat) : alignDown n a % a = 0 := by
  unfold alignDown
  exact Nat.mul_mod_left _ _

theorem alignDown_le (n a : Nat) : alignDown n a ≤ n := by
  unfold alignDown
  exact Nat.div_mul_le_self _ _

theorem lt_alignDown_add (n a : Nat) (h : 0 < a) : n < alignDown n a + a := by
  unfold alignDown
  have hdm := Nat.div_add_mod n a
  have hmod : n % a < a := Nat.mod_lt _ h
  rw [Nat.mul_comm]
  generalize hq : a * (n / a) = m at *
  generalize hr : n % a = r at *
  omega

/-- C6: the derived aligned block size of the block manager is
`align_up(size + header_size, alignment)` under `HaveAtLeastSizeBytes`
(the least multiple of the alignment holding `size` payload bytes plus the
header) and `align_down(size, alignment)` under `NoMoreThanSizeBytes` (the
greatest multiple of the alignment not exceeding `size`); in particular
with `NoMoreThanSizeBytes`, `size = 4096` and `alignment = 4096` the
aligned block size is `4096`. -/
theorem claim_c6_aligned_size (o : BlockOptions) (h : 0 < o.alignment) :
    (o.must_contain_size_bytes_in_space = true →
      GetAlignedSize o % o.alignment = 0 ∧
      o.size + blockHeaderSize ≤ GetAlignedSize o ∧
      GetAlignedSize o < o.size + blockHeaderSize + o.alignment) ∧
    (o.must_contain_size_bytes_in_space = false →
      GetAlignedSize o % o.alignment = 0 ∧
      GetAlignedSize o ≤ o.size ∧
      o.size < GetAlignedSize o + o.alignment) ∧
    GetAlignedSize ⟨4096, 4096, false, true⟩ = 4096 ∧
    GetAlignedSize ⟨4096, 4096, false, false⟩ = 4096 := by
  refine ⟨fun hm => ?_, fun hm => ?_, by decide, by decide⟩
  · simp only [GetAlignedSize, hm, if_true]
    exact ⟨alignUp_mod _ _, le_alignUp _ _ h, alignUp_lt _ _ h⟩
  · simp only [GetAlignedSize, hm, Bool.false_eq_true, if_false]
    exact ⟨alignDown_mod _ _, alignDown_le _ _, lt_alignDown_add _ _ h⟩

/-- Witness for C6: the theorem instantiated at an alignment-8,
size-64 `HaveAtLeastSizeBytes` configuration. -/
theorem claim_c6_witness :
    0 < (⟨8, 64, true, true⟩ : BlockOptions).alignment ∧
    (((⟨8, 64, true, true⟩ : BlockOptions).must_contain_size_bytes_in_space = true →
      GetAlignedSize ⟨8, 64, true, true⟩ % 8 = 0 ∧
      64 + blockHeaderSize ≤ GetAlignedSize ⟨8, 64, true, true⟩ ∧
      GetAlignedSize ⟨8, 64, true, true⟩ < 64 + blockHeaderSize + 8) ∧
    ((⟨8, 64, true, true⟩ : BlockOptions).must_contain_size_bytes_in_space = false →
      GetAlignedSize ⟨8, 64, true, true⟩ % 8 = 0 ∧
      GetAlignedSize ⟨8, 64, true, true⟩ ≤ 64 ∧
      64 < GetAlignedSize ⟨8, 64, true, true⟩ + 8) ∧
    GetAlignedSize ⟨4096, 4096, false, true⟩ = 4096 ∧
    GetAlignedSize ⟨4096, 4096, false, false⟩ = 4096) :=
  ⟨by decide, claim_c6_aligned_size ⟨8, 64, true, true⟩ (by decide)⟩

/-! ## Page provider (`src/include/dmt/allocator/page.hpp`) -/
/-- A failing `CreateNewRegistry` reports `Internal` and leaves the
state untouched (the only failure is the page fetch). -/
theorem createNewRegistry_error {s : PageState} {r : Registry} {e : Error} {s1 : PageState}
    (h : createNewRegistry s r = (Except.error e, s1)) :
    e = Error.Internal ∧ s1 = s := by
  unfold createNewRegistry at h
  split at h
  · injection h with h1 h2
    injection h1 with h3
    exact ⟨h3.symm, h2.symm⟩
  · split at h <;> simp at h

/-- A failing `RegisterSpan` reports `Internal` and leaves the state
untouched. -/
theorem registerSpan_error {s : PageState} {sp : Span} {e : Error} {s2 : PageState}
    (h : registerSpan s sp = (Except.error e, s2)) :
    e = Error.Internal ∧ s2 = s := by
  unfold registerSpan at h
  split at h
  · split at h
    · rename_i e1 s1 heq
      injection h with h1 h2
      injection h1 with h3
      subst h3
      subst h2
      exact createNewRegistry_error heq
    · simp at h
  · simp at h

/-- A successful page fetch yields the oracle's next base and pushes the
range onto the mapped list, preserving the page size. -/
theorem fetchPages_some {p : Platform} {c b : Nat} {p1 : Platform}
    (h : fetchPages p c = some (b, p1)) :
    b = p.nextBase ∧ p1.mapped = (b, c) :: p.mapped ∧ p1.pageSize = p.pageSize := by
  unfold fetchPages at h
  split at h
  · exact absurd h (by simp)
  · injection h with h1
    injection h1 with hb hp
    subst hp
    refine ⟨hb.symm, ?_, rfl⟩
    show (p.nextBase, c) :: p.mapped = (b, c) :: p.mapped
    rw [hb]

/-- Returning the range just fetched restores the mapped list. -/
theorem removeRange_cons (t : Nat × Nat) (m : List (Nat × Nat)) :
    removeRange (t :: m) t = m := by
  simp [removeRange]

set_option maxRecDepth 100000

/-- C5: `Page::Allocate(count)` returns `InvalidInput` exactly when
`count = 0` or `count ≥ 2 ^ 16`; every count with `1 ≤ count < 2 ^ 16`
passes validation (any later failure is `Internal`, never
`InvalidInput`). -/
theorem claim_c5_validate (s : PageState) (count : Nat) :
    resErr (pAllocate s count) = some Error.InvalidInput ↔
      (count = 0 ∨ 2 ^ 16 ≤ count) := by
  constructor
  · intro h
    by_contra hc
    unfold pAllocate at h
    rw [if_neg hc] at h
    split at h
    · simp [resErr] at h
    · split at h
      · rename_i e s2 heq
        have he := (registerSpan_error heq).1
        subst he
        simp [resErr] at h
      · simp [resErr] at h
  · intro h
    unfold pAllocate
    rw [if_pos h]
    rfl

/-- Witness for C5: `Allocate(0)` is rejected with `InvalidInput`. -/
theorem claim_c5_witness :
    resErr (pAllocate (mkInit 4096 5 4096) 0) = some Error.InvalidInput :=
  (claim_c5_validate (mkInit 4096 5 4096) 0).mpr (Or.inl rfl)

/-- C2 counterexample: on the state reached by `Allocate(1)` from a fresh
provider (4096-byte pages), the first `Release(4096)` succeeds and the
second `Release(4096)` succeeds as well — it does not fail with
`InvalidInput`, because the span slot is never reclaimed and still
matches the pointer. -/
theorem claim_c2_counterexample :
    (pRelease sAfterOne 4096).1 = Except.ok () ∧
    (pRelease (pRelease sAfterOne 4096).2 4096).1 = Except.ok () :=
  ⟨rfl, rfl⟩

/-- C2 (amended): after one successful `Release(p)`, a second
`Release(p)` does not fail with `InvalidInput` — the stale slot still
matches `p`, so the release path succeeds again and hands the pages to
the platform a second time. -/
theorem claim_c2_second_release (s : PageState) (p : Nat)
    (h : (pRelease s p).1 = Except.ok ()) :
    (pRelease (pRelease s p).2 p).1 = Except.ok () := by
  by_cases hp : p = 0
  · unfold pRelease at h
    rw [if_pos hp] at h
    simp at h
  · cases hf : findSpan s s.registry p with
    | none =>
      unfold pRelease at h
      rw [if_neg hp, hf] at h
      simp at h
    | some sp =>
      have h2 : (pRelease s p).2 =
          { s with platform := returnPages s.platform p sp.count } := by
        unfold pRelease
        rw [if_neg hp, hf]
      rw [h2]
      have hf2 : findSpan { s with platform := returnPages s.platform p sp.count }
          ({ s with platform := returnPages s.platform p sp.count } : PageState).registry p =
          some sp := hf
      unfold pRelease
      rw [if_neg hp, hf2]

/-- Witness for C2 (amended): the second release on the concrete
single-allocation state, via the theorem. -/
theorem claim_c2_witness :
    (pRelease (pRelease sAfterOne 4096).2 4096).1 = Except.ok () :=
  claim_c2_second_release sAfterOne 4096 rfl

/-- C1: code-bug evidence.  On a 64-byte-page platform, after 7
`Allocate(1)` calls the first registry is Full and chained behind the
current one; the span of the first allocation (base `4096`) is recorded
in that older registry, so the spec's chain scan finds it — yet
`Release(4096)` returns `InvalidInput`, because `Page::FindSpan` scans
only the current registry and never follows `next_registry` (the walk is
a `TODO` in the source). -/
theorem claim_c1_chain_not_searched :
    chainContains sChained 4096 = true ∧
    resErr (pRelease sChained 4096) = some Error.InvalidInput :=
  ⟨rfl, rfl⟩

/-- C7: if `Allocate(count)` passes validation and fetches its pages but
`RegisterSpan` then fails, the freshly fetched pages are returned to the
OS before the registry error is propagated: the call returns exactly the
registry error, and the platform's mapped ranges end up as they were
before the call — no pages leak. -/
theorem claim_c7_no_leak (s : PageState) (count base : Nat) (plat : Platform)
    (e : Error) (s2 : PageState)
    (hv : ¬(count = 0 ∨ 2 ^ 16 ≤ count))
    (hf : fetchPages s.platform count = some (base, plat))
    (hr : registerSpan { s with platform := plat } ⟨base % 2 ^ 48, count % 2 ^ 16⟩ =
      (Except.error e, s2)) :
    pAllocate s count =
      (Except.error e, { s2 with platform := returnPages s2.platform base count }) ∧
    ((pAllocate s count).2).platform.mapped = s.platform.mapped := by
  have hpa : pAllocate s count =
      (Except.error e, { s2 with platform := returnPages s2.platform base count }) := by
    unfold pAllocate
    rw [if_neg hv, hf]
    dsimp only
    rw [hr]
  refine ⟨hpa, ?_⟩
  rw [hpa]
  have hs2 : s2 = { s with platform := plat } := (registerSpan_error hr).2
  obtain ⟨hb, hm, hps⟩ := fetchPages_some hf
  subst hs2
  show removeRange plat.mapped (base, count) = s.platform.mapped
  rw [hm]
  exact removeRange_cons _ _

/-- Witness for C7: a provider whose oracle allows exactly one fetch; the
span pages are fetched, installing the first registry fails, the pages
are returned (the mapped list is empty again) and `Internal` is
propagated. -/
theorem claim_c7_witness :
    pAllocate (mkInit 4096 1 4096) 1 =
      (Except.error Error.Internal,
        { registry := initRegistry,
          chain := [],
          mem := [],
          platform := ⟨4096, 8192, 0, []⟩ }) ∧
    ((pAllocate (mkInit 4096 1 4096) 1).2).platform.mapped =
      (mkInit 4096 1 4096).platform.mapped :=
  claim_c7_no_leak (mkInit 4096 1 4096) 1 4096 ⟨4096, 8192, 0, [(4096, 1)]⟩
    Error.Internal
    { registry := initRegistry, chain := [], mem := [],
      platform := ⟨4096, 8192, 0, [(4096, 1)]⟩ }
    (by decide) rfl rfl

/-- C3: code-bug evidence.  With alignment 8 and request size 64 the
bump allocator has `AlignedSize_ = 80`, so `allocate(80)` passes the
`n > AlignedSize_` pre-check; the request cannot fit the usable payload
`AlignedSize_ - GetChunkHeaderSize() = 64`, so a fresh chunk (base
`4176`) is chained and the request is served from it without any
re-check: the returned pointer `4192` is aligned, but
`result + n = 4272` exceeds the serving block's end
`4176 + AlignedSize_ = 4256`, overrunning the block by the header
size. -/
theorem claim_c3_overrun :
    80 ≤ AlignedSize cfg8 ∧
    (bAllocate cfg8 bump0 80).1 = some 4192 ∧
    4192 % 8 = 0 ∧
    (bAllocate cfg8 bump0 80).2.current = some 4176 ∧
    4176 + AlignedSize cfg8 < 4192 + 80 := by
  decide

/-- C4 counterexample: after one allocation the current chunk is `4096`;
`Reset` zeroes the offset and clears the head pointer, but the current
pointer is left at `4096` instead of being cleared to null. -/
theorem claim_c4_counterexample :
    (bReset (bAllocate cfg8 bump0 8).2).current = some 4096 ∧
    (bReset (bAllocate cfg8 bump0 8).2).current ≠ none := by
  decide

/-- C4 (amended): `Reset` zeroes the offset, releases the entire chunk
chain and clears the head pointer, but leaves the current-block pointer
unchanged (the source never nulls `current_`). -/
theorem claim_c4_reset (s : BumpState) :
    (bReset s).offset = 0 ∧
    (bReset s).chunks = [] ∧
    (bReset s).released = s.released ++ s.chunks ∧
    (bReset s).current = s.current := by
  refine ⟨rfl, rfl, ?_, rfl⟩
  show (if s.chunks.isEmpty then s.released else s.released ++ s.chunks) =
    s.released ++ s.chunks
  split
  · rename_i h
    rw [List.isEmpty_iff.mp h]
    simp
  · rfl

/-- C10: the rebinding copy constructor yields a fresh empty bump
allocator — zero offset, empty chain, null current pointer, nothing ever
released — and its result does not depend on the source allocator's
chain, current block or offset, so no state is shared with the source
(which, the constructor being a pure function of the model, is not
modified). -/
theorem claim_c10_rebind (s : BumpState) :
    (rebindCopy s).offset = 0 ∧
    (rebindCopy s).chunks = [] ∧
    (rebindCopy s).current = none ∧
    (rebindCopy s).released = [] ∧
    ∀ t : BumpState, (rebindCopy t).offset = (rebindCopy s).offset ∧
      (rebindCopy t).chunks = (rebindCopy s).chunks ∧
      (rebindCopy t).current = (rebindCopy s).current :=
  ⟨rfl, rfl, rfl, rfl, fun _ => ⟨rfl, rfl, rfl⟩⟩

/-- A `CreateNewRegistry` on the freshly loaded current registry that
returns ok has installed the new registry: the cell is Empty. -/
theorem createNewRegistry_ok_state {s : PageState} {u : Unit} {s1 : PageState}
    (h : createNewRegistry s s.registry = (Except.ok u, s1)) :
    s1.registry.state = 1 := by
  unfold createNewRegistry at h
  split at h
  · simp at h
  · rw [if_pos rfl] at h
    injection h with h1 h2
    rw [← h2]

/-- Installing a new registry preserves the strengthened invariant when
the replaced registry is Inactive or Full. -/
theorem sinv_create {s : PageState} (h : SInv s = true)
    (hst : s.registry.state = 0 ∨ s.registry.state = 3) :
    SInv (createNewRegistry s s.registry).2 = true := by
  unfold createNewRegistry
  cases hf : fetchPages s.platform kRegistrySize with
  | none => exact h
  | some bp =>
    obtain ⟨base, plat⟩ := bp
    dsimp only
    rw [if_pos rfl]
    have hps : plat.pageSize = s.platform.pageSize := (fetchPages_some hf).2.2
    simp only [SInv, RegInv, headerOK, headerBoundsOK, nextRegOK, chainOK,
      kSpanSetStart, Bool.and_eq_true, Bool.or_eq_true, beq_iff_eq, decide_eq_true_eq,
      List.any_eq_true, List.all_eq_true, List.isEmpty_iff, bne_iff_ne, ne_eq] at h ⊢
    obtain ⟨⟨⟨⟨⟨⟨hcur, hchain⟩, hinact⟩, hself⟩, hchainself⟩, hcap1⟩, hcap2⟩ := h
    rcases hst with h0 | h3
    · obtain ⟨hnr0, hchainnil⟩ := hinact.resolve_left (not_not_intro h0)
      simp only [h0, hnr0, hchainnil, hps, chainOK, not_true_eq_false, if_false, ite_false]
      refine ⟨⟨⟨⟨⟨⟨Or.inr ⟨⟨⟨by omega, by omega⟩, by omega⟩, Or.inl trivial⟩, trivial⟩,
        Or.inl (by omega)⟩, by omega⟩, by simp⟩, hcap1⟩, hcap2⟩
    · have hne : ¬s.registry.state = 0 := by omega
      obtain ⟨⟨⟨hb1, hb2⟩, hiff⟩, hlink⟩ := hcur.resolve_left hne
      have hselfmod : s.registry.self_address % 2 ^ 48 = s.registry.self_address :=
        Nat.mod_eq_of_lt hself
      simp only [hne, hps, hselfmod, chainOK, headerOK, headerBoundsOK, nextRegOK,
        kSpanSetStart, if_true, ite_true, not_false_eq_true,
        Bool.and_eq_true, Bool.or_eq_true, beq_iff_eq, decide_eq_true_eq,
        List.any_eq_true, List.all_eq_true]
      refine ⟨⟨⟨⟨⟨⟨Or.inr ⟨⟨⟨by omega, by omega⟩, by omega⟩,
        Or.inr ⟨s.registry, List.mem_cons_self _ _, rfl, h3⟩⟩,
        ⟨Or.inr ⟨⟨⟨hb1, hb2⟩, hiff⟩, hlink⟩, hchain⟩⟩,
        Or.inl (by omega)⟩, by omega⟩, ?_⟩, hcap1⟩, hcap2⟩
      intro x hx
      rcases List.mem_cons.mp hx with hx1 | hx2
      · rw [hx1]; exact hself
      · exact hchainself x hx2

/-- The slot-reserving commit preserves the strengthened invariant when
the current registry is neither Inactive nor Full (the states in which
`RegisterSpan` commits). -/
theorem sinv_commit {s : PageState} (sp : Span) (h : SInv s = true)
    (h0 : s.registry.state ≠ 0) (h3 : s.registry.state ≠ 3) :
    SInv (commitSpan s sp) = true := by
  simp only [SInv, RegInv, headerOK, headerBoundsOK, nextRegOK, chainOK, commitSpan,
    kSpanSetStart, Bool.and_eq_true, Bool.or_eq_true, beq_iff_eq, decide_eq_true_eq,
    List.any_eq_true, List.all_eq_true, List.isEmpty_iff, bne_iff_ne, ne_eq] at h ⊢
  obtain ⟨⟨⟨⟨⟨⟨hcur, hchain⟩, hinact⟩, hself⟩, hchainself⟩, hcap1⟩, hcap2⟩ := h
  rcases hcur with h' | ⟨⟨⟨hb1, hb2⟩, hiff⟩, hlink⟩
  · exact absurd h' h0
  have hslotlt : s.registry.next_slot < kSpanSetEnd s.platform.pageSize :=
    lt_of_le_of_ne hb2 (fun hh => h3 (hiff.mpr hh))
  have hmod : (s.registry.next_slot + 1) % 2 ^ 12 = s.registry.next_slot + 1 :=
    Nat.mod_eq_of_lt (by omega)
  rw [hmod]
  by_cases hfull : s.registry.next_slot + 1 = kSpanSetEnd s.platform.pageSize
  · refine ⟨⟨⟨⟨⟨⟨Or.inr ⟨⟨⟨by omega, by omega⟩, by simp [hfull]⟩, hlink⟩, hchain⟩,
      Or.inl (by simp [hfull])⟩, hself⟩, hchainself⟩, hcap1⟩, hcap2⟩
  · refine ⟨⟨⟨⟨⟨⟨Or.inr ⟨⟨⟨by omega, by omega⟩, by simp [if_neg hfull, hfull]⟩, hlink⟩, hchain⟩,
      Or.inl (by simp [if_neg hfull])⟩, hself⟩, hchainself⟩, hcap1⟩, hcap2⟩

/-- `RegisterSpan` preserves the strengthened invariant. -/
theorem sinv_register {s : PageState} (sp : Span) (h : SInv s = true) :
    SInv (registerSpan s sp).2 = true := by
  unfold registerSpan
  split
  · rename_i hst
    cases hc : createNewRegistry s s.registry with
    | mk res s1 =>
      cases res with
      | error e =>
        dsimp only
        rw [(createNewRegistry_error hc).2]
        exact h
      | ok u =>
        dsimp only
        have h1 : SInv s1 = true := by
          have h2 := sinv_create h hst
          rwa [hc] at h2
        have h2 : s1.registry.state = 1 := createNewRegistry_ok_state hc
        exact sinv_commit sp h1 (by omega) (by omega)
  · rename_i hst
    push_neg at hst
    exact sinv_commit sp h hst.1 hst.2

/-- Every guarded registry operation preserves the strengthened
invariant. -/
theorem sinv_step {s : PageState} {op : RegOp} (h : SInv s = true)
    (hop : opAllowed s op = true) : SInv (applyRegOp s op) = true := by
  cases op with
  | ins sp => exact sinv_register sp h
  | newReg =>
    have hst : s.registry.state = 0 ∨ s.registry.state = 3 := by
      simpa [opAllowed] using hop
    exact sinv_create h hst

/-- C8 counterexample: running `RegisterSpan` once (the current registry
becomes Partial) and then a direct `CreateNewRegistry` on that Partial
registry — a sequence the claim quantifies over but `RegisterSpan` never
produces — installs a header whose `next_registry` is the self address
of a Partial, not Full, registry: the claimed invariant fails. -/
theorem claim_c8_counterexample : RegInv sUnguarded = false := by decide

/-- C8 (amended): for every sequence of `RegisterSpan` and
`CreateNewRegistry` operations from the initial registry state in which
each `CreateNewRegistry` executes only while the current registry is
Inactive or Full — the only way `RegisterSpan` ever invokes it — every
non-Inactive registry header satisfies: `next_slot` lies in
`[kSpanSetStart, kSpanSetEnd]`, the state is Full iff `next_slot` equals
`kSpanSetEnd`, and `next_registry` is null or the self address of a Full
registry.  The platform page size is assumed sane: more than
`kSpanSetStart` and fewer than `2 ^ 12` slots per registry page, as with
every real page size. -/
theorem claim_c8_registry_invariant (ps quota nb : Nat) (s : PageState)
    (hcap1 : kSpanSetStart < kSpanSetEnd ps) (hcap2 : kSpanSetEnd ps < 2 ^ 12)
    (h : GuardedReach (mkInit ps quota nb) s) :
    RegInv s = true := by
  have hs : SInv s = true := by
    induction h with
    | refl =>
      simp only [SInv, RegInv, headerOK, headerBoundsOK, nextRegOK, chainOK, mkInit,
        initRegistry, Bool.and_eq_true, Bool.or_eq_true, beq_iff_eq, decide_eq_true_eq,
        List.any_eq_true, List.all_eq_true, List.isEmpty_iff]
      exact ⟨⟨⟨⟨⟨⟨Or.inl trivial, trivial⟩, Or.inr ⟨trivial, trivial⟩⟩, by omega⟩,
        by simp⟩, hcap1⟩, hcap2⟩
    | step op hre hop ih => exact sinv_step ih hop
  simp only [SInv, Bool.and_eq_true] at hs
  exact hs.1.1.1.1.1

/-- Witness for C8: the invariant at the state reached by one guarded
`RegisterSpan` from a fresh provider on a 4096-byte-page platform. -/
theorem claim_c8_witness :
    RegInv (applyRegOp (mkInit 4096 5 4096) (RegOp.ins ⟨4096, 1⟩)) = true :=
  claim_c8_registry_invariant 4096 5 4096 _ (by decide) (by decide)
    (GuardedReach.step (RegOp.ins ⟨4096, 1⟩) (GuardedReach.refl _) (by decide))
